import Mathlib

/-!
Verification of the balance/statistics core of the Stonk.stats trading journal.

The development shallowly embeds the relevant JavaScript modules:

* `src/core/state.js` — `AppState` cash-flow bookkeeping and the computed
  `currentSize` / `realizedPnL` properties;
* `src/features/stats/stats.js` — two `StatsCalculator` classes (the
  straight-line one defined in the stats page module, embedded under
  `StatsCalculatorV1`, and the refactored `StatsCalculator.js` built on
  `_getClosedTradeMetrics`, embedded under `StatsCalculatorV2`), together with
  `getBalanceForDate` and `checkAndSaveEOD`;
* `src/features/stats/IncrementalStatsCalculator.js` — trade checksum and
  cache validity;
* `src/features/stats/PnLCalendar.js` — per-day and per-week P&L aggregation.

JavaScript numbers are modelled as exact rationals (`ℚ`), with JS division
guarded by the source's own zero checks; `x / 0 = 0` in `ℚ` only ever arises
in branches the source guards.  Date strings are modelled as `String` where
the source only compares them, and calendar dates as integers counting days
from an (arbitrary) epoch Sunday, so that the JS `Date.getDay` convention
0 = Sunday … 6 = Saturday becomes `d % 7`.
-/

namespace StonkStats

/-- One entry of a trade's `trimHistory` (only the `pnl` field is read by the
realized-P&L extractor; `date`/`shares`/`price` are display-only). -/
structure TrimEntry where
  pnl : ℚ
deriving DecidableEq, Repr

/-- A journal trade, restricted to the fields the statistics core reads.
`status` is the literal JS string `"open" | "closed" | "trimmed"`; `id` is the
trade identifier (`Date.now()` in JS, stringified by the checksum's sort). -/
structure Trade where
  id : String
  status : String
  pnl : ℚ
  trimHistory : List TrimEntry
deriving DecidableEq, Repr

/-- Modelled from the spec: `getTradeRealizedPnL` lives in
`src/core/utils/tradeCalculations.js`, which is not under `src/`; §4.2 of the
spec: a `closed` trade returns its stored final P&L, a `trimmed` trade the sum
of realized P&L across all `trimHistory` entries, an `open` trade 0. -/
def getTradeRealizedPnL (t : Trade) : ℚ :=
  if t.status = "closed" then t.pnl
  else if t.status = "trimmed" then (t.trimHistory.map (·.pnl)).sum
  else 0

/-- The `e.status === 'closed' || e.status === 'trimmed'` predicate used by
every stats function. -/
def isClosedOrTrimmed (t : Trade) : Bool :=
  t.status == "closed" || t.status == "trimmed"

/-- Modelled from the spec: `calculateRealizedPnL` (the batch extractor) from
`src/core/utils/tradeCalculations.js`, absent from `src/`; §4.2:
`realizedPnLBatch(trades)` sums `realizedPnL` over closed/trimmed trades only,
open trades contribute 0. -/
def calculateRealizedPnL (trades : List Trade) : ℚ :=
  ((trades.filter isClosedOrTrimmed).map getTradeRealizedPnL).sum

/-- Result record of `calculateWinsLosses`. -/
structure WinsLosses where
  wins : ℕ
  losses : ℕ
  total : ℕ
deriving DecidableEq, Repr

/-! ### The straight-line `StatsCalculator` (defined inside `stats.js`) -/

namespace StatsCalculatorV1

/-- `calculateWinRate` (stats.js:1326): null when there are no closed/trimmed
trades, otherwise `(wins.length / closedTrades.length) * 100` with wins the
trades of strictly positive realized P&L. -/
def calculateWinRate (trades : List Trade) : Option ℚ :=
  let closedTrades := trades.filter isClosedOrTrimmed
  if closedTrades.length = 0 then none
  else
    let wins := closedTrades.filter fun t => decide (0 < getTradeRealizedPnL t)
    some ((wins.length : ℚ) / (closedTrades.length : ℚ) * 100)

/-- `calculateWinsLosses` (stats.js:1339): wins are `pnl > 0`, losses are
`pnl <= 0` (breakeven counts as a loss). -/
def calculateWinsLosses (trades : List Trade) : WinsLosses :=
  let closedTrades := trades.filter isClosedOrTrimmed
  let wins := closedTrades.filter fun t => decide (0 < getTradeRealizedPnL t)
  let losses := closedTrades.filter fun t => decide (getTradeRealizedPnL t ≤ 0)
  { wins := wins.length, losses := losses.length, total := closedTrades.length }

/-- `calculateAvgWinLossRatio` (stats.js:1358): losses are filtered with the
strict `pnl < 0`. -/
def calculateAvgWinLossRatio (trades : List Trade) : Option ℚ :=
  let closedTrades := trades.filter isClosedOrTrimmed
  if closedTrades.length = 0 then none
  else
    let wins := closedTrades.filter fun t => decide (0 < getTradeRealizedPnL t)
    let losses := closedTrades.filter fun t => decide (getTradeRealizedPnL t < 0)
    if wins.length = 0 ∨ losses.length = 0 then none
    else
      let totalWins := (wins.map getTradeRealizedPnL).sum
      let totalLosses := (losses.map getTradeRealizedPnL).sum
      let avgWin := totalWins / (wins.length : ℚ)
      let avgLoss := |totalLosses / (losses.length : ℚ)|
      if avgLoss = 0 then none else some (avgWin / avgLoss)

/-- `calculateTradeExpectancy` (stats.js:1384): `winRate×avgWin +
lossRate×avgLoss` with losses the strictly negative trades; the averages
default to 0 when the respective side is empty. -/
def calculateTradeExpectancy (trades : List Trade) : Option ℚ :=
  let closedTrades := trades.filter isClosedOrTrimmed
  if closedTrades.length = 0 then none
  else
    let wins := closedTrades.filter fun t => decide (0 < getTradeRealizedPnL t)
    let losses := closedTrades.filter fun t => decide (getTradeRealizedPnL t < 0)
    let totalTrades : ℚ := (closedTrades.length : ℚ)
    let winRate := (wins.length : ℚ) / totalTrades
    let lossRate := (losses.length : ℚ) / totalTrades
    let totalWins := (wins.map getTradeRealizedPnL).sum
    let totalLosses := (losses.map getTradeRealizedPnL).sum
    let avgWin := if 0 < wins.length then totalWins / (wins.length : ℚ) else 0
    let avgLoss := if 0 < losses.length then totalLosses / (losses.length : ℚ) else 0
    some (winRate * avgWin + lossRate * avgLoss)

end StatsCalculatorV1

/-! ### The refactored `StatsCalculator` (`StatsCalculator.js`, second document
of `stats.js`), built on the single-pass `_getClosedTradeMetrics` -/

namespace StatsCalculatorV2

/-- Return record of `_getClosedTradeMetrics`. -/
structure ClosedTradeMetrics where
  closedTrades : List Trade
  wins : List Trade
  losses : List Trade
  totalWins : ℚ
  totalLosses : ℚ
  winRate : Option ℚ
  winsCount : ℕ
  lossesCount : ℕ
deriving DecidableEq, Repr

/-- `_getClosedTradeMetrics` (StatsCalculator.js): one pass over the
closed/trimmed trades; a trade goes to `wins` when `pnl > 0` and otherwise to
`losses` — so breakeven trades land in `losses`. -/
def _getClosedTradeMetrics (trades : List Trade) : ClosedTradeMetrics :=
  let closedTrades := trades.filter isClosedOrTrimmed
  if closedTrades.length = 0 then
    { closedTrades := [], wins := [], losses := [], totalWins := 0,
      totalLosses := 0, winRate := none, winsCount := 0, lossesCount := 0 }
  else
    let wins := closedTrades.filter fun t => decide (0 < getTradeRealizedPnL t)
    let losses := closedTrades.filter fun t => !decide (0 < getTradeRealizedPnL t)
    { closedTrades := closedTrades
      wins := wins
      losses := losses
      totalWins := (wins.map getTradeRealizedPnL).sum
      totalLosses := (losses.map getTradeRealizedPnL).sum
      winRate := some ((wins.length : ℚ) / (closedTrades.length : ℚ) * 100)
      winsCount := wins.length
      lossesCount := losses.length }

/-- `calculateWinRate` (refactored). -/
def calculateWinRate (trades : List Trade) : Option ℚ :=
  (_getClosedTradeMetrics trades).winRate

/-- `calculateWinsLosses` (refactored). -/
def calculateWinsLosses (trades : List Trade) : WinsLosses :=
  let metrics := _getClosedTradeMetrics trades
  { wins := metrics.winsCount, losses := metrics.lossesCount,
    total := metrics.closedTrades.length }

/-- `calculateAvgWinLossRatio` (refactored): note the `losses` side here is
the `pnl <= 0` side of the single-pass partition. -/
def calculateAvgWinLossRatio (trades : List Trade) : Option ℚ :=
  let metrics := _getClosedTradeMetrics trades
  if metrics.wins.length = 0 ∨ metrics.losses.length = 0 then none
  else
    let avgWin := metrics.totalWins / (metrics.wins.length : ℚ)
    let avgLoss := |metrics.totalLosses / (metrics.losses.length : ℚ)|
    if avgLoss = 0 then none else some (avgWin / avgLoss)

/-- `calculateProfitFactor` (refactored): `totalWins / |totalLosses|`. -/
def calculateProfitFactor (trades : List Trade) : Option ℚ :=
  let metrics := _getClosedTradeMetrics trades
  if metrics.wins.length = 0 ∨ metrics.losses.length = 0 then none
  else
    let totalLossesAbs := |metrics.totalLosses|
    if totalLossesAbs = 0 then none else some (metrics.totalWins / totalLossesAbs)

/-- `calculateTradeExpectancy` (refactored). -/
def calculateTradeExpectancy (trades : List Trade) : Option ℚ :=
  let metrics := _getClosedTradeMetrics trades
  if metrics.closedTrades.length = 0 then none
  else
    let totalTrades : ℚ := (metrics.closedTrades.length : ℚ)
    let winRate := (metrics.winsCount : ℚ) / totalTrades
    let lossRate := (metrics.lossesCount : ℚ) / totalTrades
    let avgWin := if 0 < metrics.winsCount then metrics.totalWins / (metrics.winsCount : ℚ) else 0
    let avgLoss := if 0 < metrics.lossesCount then metrics.totalLosses / (metrics.lossesCount : ℚ) else 0
    some (winRate * avgWin + lossRate * avgLoss)

end StatsCalculatorV2

/-! ### `AppState` cash-flow ledger and the computed `currentSize`
(`src/core/state.js`) -/

/-- A cash-flow transaction as created by `addCashFlowTransaction`
(state.js:231): `{id, type, amount, timestamp}` with `type` the literal JS
string `"deposit"` or `"withdrawal"`. -/
structure CashTx where
  id : ℕ
  type : String
  amount : ℚ
  timestamp : String
deriving DecidableEq, Repr

/-- The `state.cashFlow` component: the transaction list plus the maintained
running totals. -/
structure CashFlowState where
  transactions : List CashTx
  totalDeposits : ℚ
  totalWithdrawals : ℚ
deriving DecidableEq, Repr

/-- Initial `state.cashFlow` (state.js:32). -/
def initCashFlow : CashFlowState :=
  { transactions := [], totalDeposits := 0, totalWithdrawals := 0 }

/-- `addCashFlowTransaction` (state.js:231): unshift the new transaction and
bump the matching running total (`id`/`timestamp` come from `Date.now()` and
the clock; they are parameters here). -/
def addCashFlowTransaction (s : CashFlowState) (type : String) (amount : ℚ)
    (id : ℕ) (timestamp : String) : CashFlowState :=
  let tx : CashTx := { id := id, type := type, amount := amount, timestamp := timestamp }
  { transactions := tx :: s.transactions
    totalDeposits := if type = "deposit" then s.totalDeposits + amount else s.totalDeposits
    totalWithdrawals := if type = "withdrawal" then s.totalWithdrawals + amount else s.totalWithdrawals }

/-- `findIndex` + `splice(index, 1)` on the transaction list: remove the first
transaction whose `id` matches, returning it alongside the remaining list. -/
def removeFirstTx : List CashTx → ℕ → Option CashTx × List CashTx
  | [], _ => (none, [])
  | tx :: rest, i =>
    if tx.id = i then (some tx, rest)
    else
      let r := removeFirstTx rest i
      (r.1, tx :: r.2)

/-- `deleteCashFlowTransaction` (state.js:254): when the id is found, splice
the transaction out and subtract its amount from the matching total; when it
is not found the state is unchanged (the method returns null). -/
def deleteCashFlowTransaction (s : CashFlowState) (id : ℕ) : CashFlowState :=
  match removeFirstTx s.transactions id with
  | (none, _) => s
  | (some tx, rest) =>
    { transactions := rest
      totalDeposits := if tx.type = "deposit" then s.totalDeposits - tx.amount else s.totalDeposits
      totalWithdrawals := if tx.type = "withdrawal" then s.totalWithdrawals - tx.amount else s.totalWithdrawals }

/-- `getCashFlowNet` (state.js:276). -/
def getCashFlowNet (s : CashFlowState) : ℚ :=
  s.totalDeposits - s.totalWithdrawals

/-- The computed property `currentSize` (state.js:677):
`startingAccountSize + realizedPnL + netCashFlow`.  The `_accountCache`
memoization is value-transparent (every mutation path calls
`_invalidateAccountCache`, and `_needsRecalculation` re-checks the starting
balance), so the getter is embedded as its recomputation. -/
def currentSize (startingAccountSize : ℚ) (entries : List Trade)
    (s : CashFlowState) : ℚ :=
  startingAccountSize + calculateRealizedPnL entries + getCashFlowNet s

/-- A user-level mutation of the cash-flow ledger. -/
inductive CashFlowOp where
  | add (type : String) (amount : ℚ) (id : ℕ) (timestamp : String)
  | del (id : ℕ)
deriving DecidableEq, Repr

/-- Apply one mutation. -/
def applyCashFlowOp (s : CashFlowState) : CashFlowOp → CashFlowState
  | .add type amount id timestamp => addCashFlowTransaction s type amount id timestamp
  | .del id => deleteCashFlowTransaction s id

/-- Apply a history of mutations, oldest first, to the initial state. -/
def applyCashFlowOps (ops : List CashFlowOp) : CashFlowState :=
  ops.foldl applyCashFlowOp initCashFlow

/-- An `add` carries one of the two transaction types of the data model
(§3 of the spec: `type: deposit|withdrawal`); `delete` is unconstrained. -/
def opWellTyped : CashFlowOp → Bool
  | .add type _ _ _ => type == "deposit" || type == "withdrawal"
  | .del _ => true

/-- Sum of the amounts of the deposit transactions in a list. -/
def sumDeposits (txs : List CashTx) : ℚ :=
  ((txs.filter fun tx => decide (tx.type = "deposit")).map (·.amount)).sum

/-- Sum of the amounts of the withdrawal transactions in a list. -/
def sumWithdrawals (txs : List CashTx) : ℚ :=
  ((txs.filter fun tx => decide (tx.type = "withdrawal")).map (·.amount)).sum

/-! ### Incremental stats cache (`IncrementalStatsCalculator.js`) -/

/-- `_calculateTradeChecksum` (IncrementalStatsCalculator.js:73): `'0'` for an
empty list, otherwise `` `${trades.length}:${ids sorted and joined with ','}` ``.
JS `Array.prototype.sort()` sorts the id strings; it is embedded as
`List.insertionSort (· ≤ ·)` over `String`. -/
def _calculateTradeChecksum (trades : List Trade) : String :=
  if trades.length = 0 then "0"
  else
    let idSum := String.intercalate "," (List.insertionSort (· ≤ ·) (trades.map fun t => t.id))
    toString trades.length ++ ":" ++ idSum

/-- The persisted stats-cache record, restricted to the fields that feed
`_isCacheValid` plus the metrics the final `StatsCalculator` class defines.
(`avgWin`, `avgLoss`, `profitFactor` and the other aggregate fields are
populated through `super.*` calls and play no part in validity.) -/
structure StatsCache where
  tradeCount : ℕ
  tradeChecksum : Option String
  winRate : Option ℚ
  winsLosses : WinsLosses
  closedTradeIds : List String
deriving DecidableEq, Repr

/-- `_createEmptyCache` (IncrementalStatsCalculator.js:43). -/
def _createEmptyCache : StatsCache :=
  { tradeCount := 0, tradeChecksum := none, winRate := none,
    winsLosses := { wins := 0, losses := 0, total := 0 }, closedTradeIds := [] }

/-- `_isCacheValid` (IncrementalStatsCalculator.js:88): false when there is no
cache or its trade count is 0, otherwise the stored checksum must equal the
checksum of the current trades. -/
def _isCacheValid (cache : Option StatsCache) (trades : List Trade) : Bool :=
  match cache with
  | none => false
  | some c =>
    if c.tradeCount = 0 then false
    else c.tradeChecksum == some (_calculateTradeChecksum trades)

/-- `calculateAndCacheStats` (IncrementalStatsCalculator.js:105), restricted to
its effect on the cache record: when the cache is valid it is returned
unchanged, otherwise a fresh record is built from the current trades. -/
def calculateAndCacheStats (cache : Option StatsCache) (trades : List Trade) : StatsCache :=
  if _isCacheValid cache trades then cache.getD _createEmptyCache
  else
    { tradeCount := trades.length
      tradeChecksum := some (_calculateTradeChecksum trades)
      winRate := StatsCalculatorV2.calculateWinRate trades
      winsLosses := StatsCalculatorV2.calculateWinsLosses trades
      closedTradeIds := (trades.filter isClosedOrTrimmed).map fun t => t.id }

/-! ### EOD snapshots, `getBalanceForDate` and `checkAndSaveEOD` (`stats.js`)

`eodCacheManager` (`src/core/eodCacheManager.js`) is not under `src/`; per
§4.4 of the spec it is a date-keyed map of snapshots, so `getEODData` is
embedded as an arbitrary lookup function passed as a parameter, and
`hasEODData` as an arbitrary boolean membership function. -/

/-- An EOD snapshot, restricted to the fields the consumers read: `balance`,
the optional per-day `cashFlow` (read as `eodData.cashFlow || 0`), and the
`incomplete` flag. -/
structure EODData where
  balance : ℚ
  cashFlow : Option ℚ
  incomplete : Bool
deriving DecidableEq, Repr

/-- `StatsCalculator.getBalanceForDate` (stats.js:1297).  `todayStr` stands for
`formatDate(getCurrentWeekday())` and `liveBalance` for the value of
`calculateCurrentAccount()` (a live-price computation); `eod` is the
`eodCacheManager.getEODData` lookup. -/
def getBalanceForDate (todayStr : String) (liveBalance : ℚ)
    (eod : String → Option EODData) (dateStr : String) : Option ℚ :=
  if dateStr = todayStr then some liveBalance
  else
    match eod dateStr with
    | some eodData => if eodData.incomplete = false then some eodData.balance else none
    | none => none

/-- Modelled from the spec: the effect of `saveEODSnapshot` on `hasEODData`
(`eodCacheManager` is not under `src/`); §4.4: `saveEODSnapshot(dateStr, _)` is
an upsert keyed by the date string, so afterwards `hasEODData(dateStr)` is
true and other dates are untouched. -/
def hasEODAfterSave (hasEOD : String → Bool) (dateStr : String) : String → Bool :=
  fun d => d == dateStr || hasEOD d

/-- `checkAndSaveEOD` (stats.js:906): commits a snapshot for `tradingDay` iff
the market is after close, no EOD data exists for that trading day yet, and
`tradingDay` equals the formatted current weekday (`isActualTradingDay`).
`isAfterClose`, `tradingDay` and `currentWeekday` stand for the values of
`marketHours.isAfterMarketClose()`, `marketHours.getTradingDay()` and
`marketHours.formatDate(getCurrentWeekday())` (`marketHours.js` and
`core/utils.js` are not under `src/`).  Returns whether `saveEODSnapshot` ran
together with the resulting `hasEODData` predicate. -/
def checkAndSaveEOD (isAfterClose : Bool) (tradingDay currentWeekday : String)
    (hasEOD : String → Bool) : Bool × (String → Bool) :=
  let isActualTradingDay := tradingDay == currentWeekday
  if isAfterClose && !hasEOD tradingDay && isActualTradingDay then
    (true, hasEODAfterSave hasEOD tradingDay)
  else
    (false, hasEOD)

/-! ### PnL calendar (`PnLCalendar.js`)

Calendar dates are embedded as integers counting days from an epoch Sunday:
consecutive dates differ by 1 and JS `date.getDay()` becomes `d % 7`
(0 = Sunday … 6 = Saturday). -/

/-- One iteration of the weekend-skipping `while` loop of
`_getPreviousBusinessDay` (PnLCalendar.js:686): step a further day back when
the day is a Sunday (`getDay() === 0`) or Saturday (`getDay() === 6`). -/
def skipWeekendStep (p : ℤ) : ℤ :=
  if p % 7 = 0 ∨ p % 7 = 6 then p - 1 else p

/-- `_getPreviousBusinessDay` (PnLCalendar.js:681): step one day back, then
skip backwards while the day is a Saturday or Sunday.  The `while` loop runs
at most twice (a weekend run has length 2), so it is embedded as a two-fold
unrolling of its step; `prevBusinessDay_not_weekend` below checks the loop
guard indeed fails on the result. -/
def _getPreviousBusinessDay (d : ℤ) : ℤ :=
  skipWeekendStep (skipWeekendStep (d - 1))

/-- One cell of `calculateMonthData`'s `monthData` map. -/
structure DayEntry where
  pnl : ℚ
  balance : ℚ
  cashFlow : ℚ
deriving DecidableEq, Repr

/-- The per-day body of the `calculateMonthData` loop (PnLCalendar.js:122-162):
skip the day when its own snapshot is missing or incomplete; otherwise read
the previous business day's balance, falling back to `startingAccountSize`
when that snapshot is missing or incomplete, and store
`pnl = balance − prevBalance − cashFlow`. -/
def dayCell (startingAccountSize : ℚ) (eod : ℤ → Option EODData) (d : ℤ) :
    Option DayEntry :=
  match eod d with
  | none => none
  | some eodData =>
    if eodData.incomplete then none
    else
      let balance := eodData.balance
      let cashFlow := eodData.cashFlow.getD 0
      let prevBalance :=
        match eod (_getPreviousBusinessDay d) with
        | some prevEodData =>
          if prevEodData.incomplete = false then prevEodData.balance
          else startingAccountSize
        | none => startingAccountSize
      some { pnl := balance - prevBalance - cashFlow, balance := balance, cashFlow := cashFlow }

/-- One cell of the `_getDaysInMonth` grid: a date plus the
current-month flag (leading/trailing days of adjacent months carry `false`). -/
structure CalDay where
  date : ℤ
  isCurrentMonth : Bool
deriving DecidableEq, Repr

/-- `calculateMonthData` (PnLCalendar.js:108): the `monthData` map built by
running `dayCell` over every current-month day of the grid, as an association
list in grid order (grid dates are distinct, so `Map.set` never overwrites). -/
def calculateMonthData (days : List CalDay) (startingAccountSize : ℚ)
    (eod : ℤ → Option EODData) : List (ℤ × DayEntry) :=
  days.filterMap fun day =>
    if day.isCurrentMonth then
      (dayCell startingAccountSize eod day.date).map fun e => (day.date, e)
    else none

/-- `_calculateWeeklyPnL` (PnLCalendar.js:324): starting from a Saturday cell
at `saturdayIndex`, walk `i = 1 … 5` days back in the grid, summing the
`monthData` P&L of each day that has one; return `none` when no day had data.
`pnlAt` is the `monthData.get(dateStr)?.pnl` lookup and `days` the grid dates. -/
def _calculateWeeklyPnL (pnlAt : ℤ → Option ℚ) (saturdayIndex : ℤ)
    (days : List ℤ) : Option ℚ :=
  let step := fun (acc : ℚ × Bool) (i : ℤ) =>
    let dayIndex := saturdayIndex - i
    if dayIndex < 0 then acc
    else
      match days.get? dayIndex.toNat with
      | none => acc
      | some d =>
        match pnlAt d with
        | none => acc
        | some p => (acc.1 + p, true)
  let r := ([1, 2, 3, 4, 5] : List ℤ).foldl step ((0 : ℚ), false)
  if r.2 then some r.1 else none

/-- `_getWeekRange` (PnLCalendar.js:589): Monday = Saturday − 5 up to
Friday = Saturday − 1. -/
def _getWeekRange (saturdayDate : ℤ) : ℤ × ℤ :=
  (saturdayDate - 5, saturdayDate - 1)

/-! ## Concrete inputs used by counterexamples -/

/-- EOD cache holding a single complete snapshot for day 9 (a Tuesday in the
epoch convention) and nothing else — in particular nothing for the previous
business day 8. -/
def c3Eod : ℤ → Option EODData :=
  fun d => if d = 9 then some { balance := 100, cashFlow := none, incomplete := false } else none

/-- Three closed trades: one win (+10), one loss (−10), one breakeven (0). -/
def c10Trades : List Trade :=
  [ { id := "a", status := "closed", pnl := 10, trimHistory := [] },
    { id := "b", status := "closed", pnl := -10, trimHistory := [] },
    { id := "c", status := "closed", pnl := 0, trimHistory := [] } ]

/-! ## General lemmas -/

/-- The embedded `_getPreviousBusinessDay` loop is fully unrolled: its guard
fails on the result. -/
theorem prevBusinessDay_not_weekend (d : ℤ) :
    ¬(_getPreviousBusinessDay d % 7 = 0 ∨ _getPreviousBusinessDay d % 7 = 6) := by
  simp only [_getPreviousBusinessDay, skipWeekendStep]
  split_ifs <;> omega

theorem decide_nonpos_eq_not_decide_pos (q : ℚ) :
    decide (q ≤ 0) = !decide (0 < q) := by
  by_cases h : 0 < q
  · simp [h, not_le.mpr h]
  · simp [h, le_of_not_lt h]

/-- The `pnl <= 0` filter and the else-branch of the `pnl > 0` split select the
same trades. -/
theorem filter_nonpos_eq_filter_not_pos (l : List Trade) :
    (l.filter fun t => decide (getTradeRealizedPnL t ≤ 0)) =
      (l.filter fun t => !decide (0 < getTradeRealizedPnL t)) := by
  apply List.filter_congr
  intro t _
  exact decide_nonpos_eq_not_decide_pos _

/-- Breakeven trades contribute zero, so the sum of realized P&L over the
`pnl <= 0` side equals the sum over the strictly negative side. -/
theorem sum_not_pos_eq_sum_neg (l : List Trade) :
    (((l.filter fun t => !decide (0 < getTradeRealizedPnL t)).map getTradeRealizedPnL).sum : ℚ) =
      ((l.filter fun t => decide (getTradeRealizedPnL t < 0)).map getTradeRealizedPnL).sum := by
  induction l with
  | nil => rfl
  | cons t ts ih =>
    rcases lt_trichotomy (getTradeRealizedPnL t) 0 with h | h | h
    · have h1 : ¬(0 < getTradeRealizedPnL t) := not_lt.mpr h.le
      simp [List.filter_cons, h, h1, ih]
    · have h1 : ¬(0 < getTradeRealizedPnL t) := by rw [h]; exact lt_irrefl 0
      have h2 : ¬(getTradeRealizedPnL t < 0) := by rw [h]; exact lt_irrefl 0
      simp [List.filter_cons, h, h1, h2, ih]
    · have h2 : ¬(getTradeRealizedPnL t < 0) := not_lt.mpr h.le
      simp [List.filter_cons, h, h2, ih]

/-- A filter with no survivors sums to zero. -/
theorem sum_filter_eq_zero_of_length_eq_zero (l : List Trade) (p : Trade → Bool)
    (h : (l.filter p).length = 0) :
    (((l.filter p).map getTradeRealizedPnL).sum : ℚ) = 0 := by
  rw [List.length_eq_zero] at h
  simp [h]

/-- `rate × average` collapses to `sum / total`, including the guarded-empty
case where the JS code substitutes an average of 0. -/
theorem rate_mul_avg (n : ℕ) (S T : ℚ) (h : n = 0 → S = 0) :
    ((n : ℚ) / T) * (if 0 < n then S / (n : ℚ) else 0) = S / T := by
  rcases Nat.eq_zero_or_pos n with h0 | h0
  · subst h0
    simp [h rfl]
  · have hn : (n : ℚ) ≠ 0 := Nat.cast_ne_zero.mpr h0.ne'
    rw [if_pos h0]
    rcases eq_or_ne T 0 with hT | hT
    · simp [hT]
    · field_simp
      ring

/-- The two filters of a boolean split partition the list's length. -/
theorem length_filter_add_length_filter_not (l : List Trade) (p : Trade → Bool) :
    (l.filter p).length + (l.filter fun t => !(p t)).length = l.length := by
  induction l with
  | nil => rfl
  | cons t ts ih =>
    cases h : p t <;> simp [List.filter_cons, h] <;> omega

/-! Decimal representations of naturals (`Nat.repr`, used by the checksum's
`` `${trades.length}:` `` prefix) contain no `':'` and can be read back, so the
trade count is recoverable from a checksum string. -/

theorem digitChar_ne_colon : ∀ k, k < 10 → Nat.digitChar k ≠ ':' := by decide

theorem toDigitsCore_ne_colon (fuel : ℕ) :
    ∀ (n : ℕ) (ds : List Char), (∀ c ∈ ds, c ≠ ':') →
      ∀ c ∈ Nat.toDigitsCore 10 fuel n ds, c ≠ ':' := by
  induction fuel with
  | zero =>
    intro n ds h c hc
    exact h c hc
  | succ f ih =>
    intro n ds h c hc
    simp only [Nat.toDigitsCore] at hc
    have hd : ∀ c ∈ (Nat.digitChar (n % 10) :: ds), c ≠ ':' := by
      intro x hx
      rcases List.mem_cons.mp hx with hx | hx
      · subst hx
        exact digitChar_ne_colon _ (Nat.mod_lt _ (by norm_num))
      · exact h x hx
    by_cases h0 : n / 10 = 0
    · rw [if_pos h0] at hc
      exact hd c hc
    · rw [if_neg h0] at hc
      exact ih (n / 10) (Nat.digitChar (n % 10) :: ds) hd c hc

theorem toDigitsCore_append (fuel : ℕ) :
    ∀ (n : ℕ) (ds : List Char),
      Nat.toDigitsCore 10 fuel n ds = Nat.toDigitsCore 10 fuel n [] ++ ds := by
  induction fuel with
  | zero => intro n ds; rfl
  | succ f ih =>
    intro n ds
    simp only [Nat.toDigitsCore]
    by_cases h0 : n / 10 = 0
    · rw [if_pos h0, if_pos h0]
      rfl
    · rw [if_neg h0, if_neg h0, ih (n / 10) [Nat.digitChar (n % 10)],
        ih (n / 10) (Nat.digitChar (n % 10) :: ds), List.append_assoc]
      rfl

/-- Read a decimal digit string back into the natural it denotes. -/
def readNatChars (cs : List Char) : ℕ :=
  cs.foldl (fun a c => 10 * a + (c.toNat - 48)) 0

theorem readNat_toDigitsCore (fuel : ℕ) :
    ∀ n : ℕ, n < 10 ^ fuel → readNatChars (Nat.toDigitsCore 10 fuel n []) = n := by
  induction fuel with
  | zero =>
    intro n hn
    interval_cases n
    rfl
  | succ f ih =>
    intro n hn
    simp only [Nat.toDigitsCore]
    by_cases h0 : n / 10 = 0
    · rw [if_pos h0]
      have h10 : n < 10 := by omega
      have hv : (Nat.digitChar n).toNat - 48 = n := by
        clear ih hn h0
        interval_cases n <;> rfl
      have hmod : n % 10 = n := Nat.mod_eq_of_lt h10
      rw [hmod]
      simpa [readNatChars] using hv
    · rw [if_neg h0, toDigitsCore_append]
      have hdivlt : n / 10 < 10 ^ f := by
        rw [pow_succ] at hn
        exact Nat.div_lt_of_lt_mul (by omega)
      have hih := ih (n / 10) hdivlt
      have hdigit : (Nat.digitChar (n % 10)).toNat - 48 = n % 10 := by
        have hlt : n % 10 < 10 := Nat.mod_lt _ (by norm_num)
        generalize hk : n % 10 = k at hlt ⊢
        interval_cases k <;> rfl
      simp only [readNatChars, List.foldl_append] at *
      simp only [List.foldl_cons, List.foldl_nil]
      rw [hih, hdigit]
      omega

theorem readNat_repr (n : ℕ) : readNatChars (Nat.repr n).data = n := by
  have h1 : n < 10 ^ (n + 1) := by
    calc n < 10 ^ n := Nat.lt_pow_self (by norm_num) n
    _ ≤ 10 ^ (n + 1) := Nat.pow_le_pow_right (by norm_num) (Nat.le_succ n)
  have h2 : (Nat.repr n).data = Nat.toDigitsCore 10 (n + 1) n [] := rfl
  rw [h2]
  exact readNat_toDigitsCore (n + 1) n h1

theorem repr_ne_colon (n : ℕ) : ∀ c ∈ (Nat.repr n).data, c ≠ ':' := by
  have h2 : (Nat.repr n).data = Nat.toDigitsCore 10 (n + 1) n [] := rfl
  rw [h2]
  exact toDigitsCore_ne_colon (n + 1) n [] (by intro c hc; cases hc)

/-- A `':'` marker after a colon-free prefix splits an append
unambiguously. -/
theorem append_colon_inj : ∀ (l1 l2 t1 t2 : List Char),
    (∀ c ∈ l1, c ≠ ':') → (∀ c ∈ l2, c ≠ ':') →
    l1 ++ ':' :: t1 = l2 ++ ':' :: t2 → l1 = l2 := by
  intro l1
  induction l1 with
  | nil =>
    intro l2 t1 t2 _ h2 heq
    cases l2 with
    | nil => rfl
    | cons x xs =>
      exfalso
      simp only [List.nil_append, List.cons_append, List.cons.injEq] at heq
      exact h2 x (List.mem_cons_self x xs) heq.1.symm
  | cons a as ih =>
    intro l2 t1 t2 h1 h2 heq
    cases l2 with
    | nil =>
      exfalso
      simp only [List.nil_append, List.cons_append, List.cons.injEq] at heq
      exact h1 a (List.mem_cons_self a as) heq.1
    | cons x xs =>
      simp only [List.cons_append, List.cons.injEq] at heq
      have hih := ih xs t1 t2 (fun c hc => h1 c (List.mem_cons_of_mem a hc))
        (fun c hc => h2 c (List.mem_cons_of_mem x hc)) heq.2
      rw [heq.1, hih]

/-- The decimal prefix before the first `':'` determines the number. -/
theorem repr_colon_prefix_inj (n m : ℕ) (a b : String)
    (h : Nat.repr n ++ ":" ++ a = Nat.repr m ++ ":" ++ b) : n = m := by
  have hd : (Nat.repr n).data ++ ':' :: a.data = (Nat.repr m).data ++ ':' :: b.data := by
    have hc := congrArg String.data h
    simpa [String.data_append] using hc
  have hpre := append_colon_inj _ _ _ _ (repr_ne_colon n) (repr_ne_colon m) hd
  have hs : Nat.repr n = Nat.repr m := by
    cases hrn : Nat.repr n
    cases hrm : Nat.repr m
    simp_all
  calc n = readNatChars (Nat.repr n).data := (readNat_repr n).symm
  _ = readNatChars (Nat.repr m).data := by rw [hs]
  _ = m := readNat_repr m

/-- The trade count is recoverable from `_calculateTradeChecksum`'s output:
equal checksums mean equal counts, whatever the (comma- or colon-containing)
trade ids are. -/
theorem checksum_length_inj (ts1 ts2 : List Trade)
    (h : _calculateTradeChecksum ts1 = _calculateTradeChecksum ts2) :
    ts1.length = ts2.length := by
  unfold _calculateTradeChecksum at h
  by_cases h1 : ts1.length = 0 <;> by_cases h2 : ts2.length = 0
  · omega
  · rw [if_pos h1, if_neg h2] at h
    exfalso
    have hc := congrArg String.data h
    simp only [String.data_append] at hc
    have hmem : (':' : Char) ∈ (['0'] : List Char) := by
      rw [hc]
      simp
    exact absurd hmem (by decide)
  · rw [if_neg h1, if_pos h2] at h
    exfalso
    have hc := congrArg String.data h
    simp only [String.data_append] at hc
    have hmem : (':' : Char) ∈ (['0'] : List Char) := by
      rw [← hc]
      simp
    exact absurd hmem (by decide)
  · rw [if_neg h1, if_neg h2] at h
    exact repr_colon_prefix_inj _ _ _ _ h

/-- The checksum is a function of the trade-id multiset alone: permuting the
trade list (which permutes the mapped ids) leaves it unchanged. -/
theorem checksum_perm_invariant (ts1 ts2 : List Trade)
    (h : (ts1.map fun t => t.id).Perm (ts2.map fun t => t.id)) :
    _calculateTradeChecksum ts1 = _calculateTradeChecksum ts2 := by
  have hlen : ts1.length = ts2.length := by
    have := h.length_eq
    simpa using this
  unfold _calculateTradeChecksum
  by_cases h1 : ts1.length = 0
  · rw [if_pos h1, if_pos (hlen ▸ h1)]
  · rw [if_neg h1, if_neg (hlen ▸ h1)]
    have hsort : List.insertionSort (· ≤ ·) (ts1.map fun t => t.id) =
        List.insertionSort (· ≤ ·) (ts2.map fun t => t.id) :=
      List.eq_of_perm_of_sorted
        ((List.perm_insertionSort _ _).trans (h.trans (List.perm_insertionSort _ _).symm))
        (List.sorted_insertionSort _ _) (List.sorted_insertionSort _ _)
    rw [hlen, hsort]

/-- The two `calculateWinRate` implementations agree on every trade list. -/
theorem winRate_v2_eq_v1 (trades : List Trade) :
    StatsCalculatorV2.calculateWinRate trades = StatsCalculatorV1.calculateWinRate trades := by
  unfold StatsCalculatorV2.calculateWinRate StatsCalculatorV2._getClosedTradeMetrics
    StatsCalculatorV1.calculateWinRate
  by_cases h : (trades.filter isClosedOrTrimmed).length = 0 <;> simp [h]

/-- The two `calculateWinsLosses` implementations agree on every trade list. -/
theorem winsLosses_v2_eq_v1 (trades : List Trade) :
    StatsCalculatorV2.calculateWinsLosses trades = StatsCalculatorV1.calculateWinsLosses trades := by
  unfold StatsCalculatorV2.calculateWinsLosses StatsCalculatorV2._getClosedTradeMetrics
    StatsCalculatorV1.calculateWinsLosses
  by_cases h : (trades.filter isClosedOrTrimmed).length = 0
  · have he : trades.filter isClosedOrTrimmed = [] := List.length_eq_zero.mp h
    simp [h, he]
  · simp only [h, if_neg, if_false, reduceIte]
    rw [WinsLosses.mk.injEq]
    refine ⟨rfl, ?_, rfl⟩
    rw [filter_nonpos_eq_filter_not_pos]

/-- The two `calculateTradeExpectancy` implementations agree on every trade
list: both compute `totalWins/total + totalLosses/total`, and the breakeven
trades the refactored version folds into its losses side add zero to that
sum. -/
theorem tradeExpectancy_v2_eq_v1 (trades : List Trade) :
    StatsCalculatorV2.calculateTradeExpectancy trades =
      StatsCalculatorV1.calculateTradeExpectancy trades := by
  unfold StatsCalculatorV2.calculateTradeExpectancy StatsCalculatorV2._getClosedTradeMetrics
    StatsCalculatorV1.calculateTradeExpectancy
  by_cases h : (trades.filter isClosedOrTrimmed).length = 0
  · simp [h]
  · simp only [h, if_neg, if_false, reduceIte]
    have hW := rate_mul_avg
      ((trades.filter isClosedOrTrimmed).filter fun t => decide (0 < getTradeRealizedPnL t)).length
      ((((trades.filter isClosedOrTrimmed).filter fun t =>
          decide (0 < getTradeRealizedPnL t)).map getTradeRealizedPnL).sum)
      ((trades.filter isClosedOrTrimmed).length : ℚ)
      (sum_filter_eq_zero_of_length_eq_zero _ _)
    have hL2 := rate_mul_avg
      ((trades.filter isClosedOrTrimmed).filter fun t => !decide (0 < getTradeRealizedPnL t)).length
      ((((trades.filter isClosedOrTrimmed).filter fun t =>
          !decide (0 < getTradeRealizedPnL t)).map getTradeRealizedPnL).sum)
      ((trades.filter isClosedOrTrimmed).length : ℚ)
      (sum_filter_eq_zero_of_length_eq_zero _ _)
    have hL1 := rate_mul_avg
      ((trades.filter isClosedOrTrimmed).filter fun t => decide (getTradeRealizedPnL t < 0)).length
      ((((trades.filter isClosedOrTrimmed).filter fun t =>
          decide (getTradeRealizedPnL t < 0)).map getTradeRealizedPnL).sum)
      ((trades.filter isClosedOrTrimmed).length : ℚ)
      (sum_filter_eq_zero_of_length_eq_zero _ _)
    rw [hW, hL2, hL1, sum_not_pos_eq_sum_neg]

/-- On a trade list without breakeven closed/trimmed trades, the two
`calculateAvgWinLossRatio` implementations agree: the `pnl <= 0` side of the
single-pass split then coincides with the strict `pnl < 0` filter. -/
theorem avgWinLossRatio_v2_eq_v1_of_no_breakeven (trades : List Trade)
    (h : ∀ t ∈ trades, isClosedOrTrimmed t = true → getTradeRealizedPnL t ≠ 0) :
    StatsCalculatorV2.calculateAvgWinLossRatio trades =
      StatsCalculatorV1.calculateAvgWinLossRatio trades := by
  unfold StatsCalculatorV2.calculateAvgWinLossRatio StatsCalculatorV2._getClosedTradeMetrics
    StatsCalculatorV1.calculateAvgWinLossRatio
  have hfl : ((trades.filter isClosedOrTrimmed).filter fun t => !decide (0 < getTradeRealizedPnL t))
      = ((trades.filter isClosedOrTrimmed).filter fun t => decide (getTradeRealizedPnL t < 0)) := by
    apply List.filter_congr
    intro t ht
    have hmem := List.mem_filter.mp ht
    have hne := h t hmem.1 hmem.2
    rcases lt_or_gt_of_ne hne with hlt | hgt
    · simp [hlt, lt_asymm hlt]
    · simp [hgt, lt_asymm hgt]
  by_cases h0 : (trades.filter isClosedOrTrimmed).length = 0
  · have he : trades.filter isClosedOrTrimmed = [] := List.length_eq_zero.mp h0
    simp [h0, he]
  · simp only [h0, reduceIte, if_neg]
    rw [hfl]

/-! ## Claim theorems -/

/-- Unfolding `sumDeposits` over a cons cell. -/
theorem sumDeposits_cons (tx : CashTx) (l : List CashTx) :
    sumDeposits (tx :: l) = (if tx.type = "deposit" then tx.amount else 0) + sumDeposits l := by
  unfold sumDeposits
  by_cases h : tx.type = "deposit" <;> simp [List.filter_cons, h]

/-- Unfolding `sumWithdrawals` over a cons cell. -/
theorem sumWithdrawals_cons (tx : CashTx) (l : List CashTx) :
    sumWithdrawals (tx :: l) = (if tx.type = "withdrawal" then tx.amount else 0) + sumWithdrawals l := by
  unfold sumWithdrawals
  by_cases h : tx.type = "withdrawal" <;> simp [List.filter_cons, h]

/-- The running totals of `state.cashFlow` agree with the transaction list. -/
def cashFlowInvariant (s : CashFlowState) : Prop :=
  s.totalDeposits = sumDeposits s.transactions ∧
    s.totalWithdrawals = sumWithdrawals s.transactions

/-- `splice` removes exactly the found transaction: either nothing matched and
the list is unchanged, or the sums of the original list are the sums of the
remainder plus the removed transaction's contribution. -/
theorem removeFirstTx_spec (txs : List CashTx) (i : ℕ) :
    ((removeFirstTx txs i).1 = none ∧ (removeFirstTx txs i).2 = txs)
    ∨ ∃ tx, (removeFirstTx txs i).1 = some tx
        ∧ sumDeposits txs =
            sumDeposits (removeFirstTx txs i).2 + (if tx.type = "deposit" then tx.amount else 0)
        ∧ sumWithdrawals txs =
            sumWithdrawals (removeFirstTx txs i).2 + (if tx.type = "withdrawal" then tx.amount else 0) := by
  induction txs with
  | nil => exact Or.inl ⟨rfl, rfl⟩
  | cons tx rest ih =>
    by_cases h : tx.id = i
    · refine Or.inr ⟨tx, ?_, ?_, ?_⟩
      · simp [removeFirstTx, h]
      · simp [removeFirstTx, h, sumDeposits_cons]
        ring
      · simp [removeFirstTx, h, sumWithdrawals_cons]
        ring
    · rcases ih with ⟨h1, h2⟩ | ⟨tx', h1, h2, h3⟩
      · refine Or.inl ⟨?_, ?_⟩
        · simp [removeFirstTx, h, h1]
        · simp [removeFirstTx, h, h2]
      · refine Or.inr ⟨tx', ?_, ?_, ?_⟩
        · simp [removeFirstTx, h, h1]
        · simp [removeFirstTx, h, sumDeposits_cons, h2]
          ring
        · simp [removeFirstTx, h, sumWithdrawals_cons, h3]
          ring

/-- Every reachable `state.cashFlow` keeps its running totals equal to the
sums over its transaction list. -/
theorem cashFlowInvariant_preserved (ops : List CashFlowOp) :
    cashFlowInvariant (applyCashFlowOps ops) := by
  have hgen : ∀ (l : List CashFlowOp) (s : CashFlowState), cashFlowInvariant s →
      cashFlowInvariant (l.foldl applyCashFlowOp s) := by
    intro l
    induction l with
    | nil => intro s hs; exact hs
    | cons op rest ih =>
      intro s hs
      refine ih _ ?_
      cases op with
      | add ty amount id ts =>
        constructor
        · show (if ty = "deposit" then s.totalDeposits + amount else s.totalDeposits) = _
          rw [show (applyCashFlowOp s (.add ty amount id ts)).transactions =
              ({ id := id, type := ty, amount := amount, timestamp := ts } : CashTx) ::
                s.transactions from rfl, sumDeposits_cons]
          by_cases h : ty = "deposit" <;> simp [h, hs.1] <;> ring
        · show (if ty = "withdrawal" then s.totalWithdrawals + amount else s.totalWithdrawals) = _
          rw [show (applyCashFlowOp s (.add ty amount id ts)).transactions =
              ({ id := id, type := ty, amount := amount, timestamp := ts } : CashTx) ::
                s.transactions from rfl, sumWithdrawals_cons]
          by_cases h : ty = "withdrawal" <;> simp [h, hs.2] <;> ring
      | del id =>
        show cashFlowInvariant (deleteCashFlowTransaction s id)
        unfold deleteCashFlowTransaction
        rcases removeFirstTx_spec s.transactions id with ⟨h1, _⟩ | ⟨tx, h1, h2, h3⟩
        · rw [show removeFirstTx s.transactions id =
              ((removeFirstTx s.transactions id).1, (removeFirstTx s.transactions id).2) from rfl,
            h1]
          exact hs
        · rw [show removeFirstTx s.transactions id =
              ((removeFirstTx s.transactions id).1, (removeFirstTx s.transactions id).2) from rfl,
            h1]
          constructor
        -- removed transaction's contribution cancels against the total update
          · show (if tx.type = "deposit" then s.totalDeposits - tx.amount else s.totalDeposits) = _
            by_cases h : tx.type = "deposit"
            · rw [if_pos h, hs.1, h2, if_pos h]
              ring
            · rw [if_neg h, hs.1, h2, if_neg h]
              ring
          · show (if tx.type = "withdrawal" then s.totalWithdrawals - tx.amount else s.totalWithdrawals) = _
            by_cases h : tx.type = "withdrawal"
            · rw [if_pos h, hs.2, h3, if_pos h]
              ring
            · rw [if_neg h, hs.2, h3, if_neg h]
              ring
  exact hgen ops initCashFlow ⟨rfl, rfl⟩

/-- C1: in every reachable journal state, `currentSize` equals the starting
account size plus the realized P&L summed over the closed/trimmed trades plus
net cash flow (deposits minus withdrawals over the stored transactions), and
prepending an open trade does not change it. -/
theorem C1_realized_balance (ops : List CashFlowOp) (starting : ℚ) (entries : List Trade) :
    currentSize starting entries (applyCashFlowOps ops)
      = starting + ((entries.filter isClosedOrTrimmed).map getTradeRealizedPnL).sum
        + (sumDeposits (applyCashFlowOps ops).transactions
            - sumWithdrawals (applyCashFlowOps ops).transactions)
    ∧ ∀ t : Trade, t.status = "open" →
        currentSize starting (t :: entries) (applyCashFlowOps ops)
          = currentSize starting entries (applyCashFlowOps ops) := by
  have hinv := cashFlowInvariant_preserved ops
  constructor
  · unfold currentSize getCashFlowNet calculateRealizedPnL
    rw [hinv.1, hinv.2]
  · intro t ht
    unfold currentSize calculateRealizedPnL
    have hcl : isClosedOrTrimmed t = false := by
      unfold isClosedOrTrimmed
      rw [ht]
      rfl
    rw [List.filter_cons, hcl]
    simp

/-- C1 witness: with a $500 deposit on file, an open trade adds nothing to the
realized balance. -/
theorem C1_realized_balance_witness :
    currentSize 1000
        [{ id := "t1", status := "open", pnl := 5, trimHistory := [] }]
        (applyCashFlowOps [CashFlowOp.add ("deposit") 500 1 ("2024-01-03")])
      = currentSize 1000 []
          (applyCashFlowOps [CashFlowOp.add ("deposit") 500 1 ("2024-01-03")]) :=
  (C1_realized_balance [CashFlowOp.add ("deposit") 500 1 ("2024-01-03")] 1000 []).2
    { id := "t1", status := "open", pnl := 5, trimHistory := [] } rfl

/-- C4: the stats-cache checksum depends only on the trade count and the
multiset of trade ids (permutation invariant); after caching a non-empty trade
list `_isCacheValid` holds for that exact list, and it fails for any list of a
different length — in particular after any single trade addition or removal,
however byte-identical the remaining trades are. -/
theorem C4_checksum_invalidation :
    (∀ ts1 ts2 : List Trade,
        (ts1.map fun t => t.id).Perm (ts2.map fun t => t.id) →
        _calculateTradeChecksum ts1 = _calculateTradeChecksum ts2)
    ∧ (∀ (cache : Option StatsCache) (ts : List Trade), ts ≠ [] →
        _isCacheValid (some (calculateAndCacheStats cache ts)) ts = true)
    ∧ (∀ (cache : Option StatsCache) (ts1 ts2 : List Trade), ts1.length ≠ ts2.length →
        _isCacheValid (some (calculateAndCacheStats cache ts1)) ts2 = false) := by
  refine ⟨checksum_perm_invariant, ?_, ?_⟩
  · intro cache ts hts
    unfold calculateAndCacheStats
    by_cases hv : _isCacheValid cache ts
    · rw [if_pos hv]
      cases cache with
      | none => simp [_isCacheValid] at hv
      | some c0 =>
        simp only [_isCacheValid, Option.getD_some] at hv ⊢
        by_cases hc : c0.tradeCount = 0
        · simp [hc] at hv
        · simp only [hc, if_false, reduceIte] at hv ⊢
          exact hv
    · rw [if_neg hv]
      unfold _isCacheValid
      have hlen : ts.length ≠ 0 := by
        intro h0
        exact hts (List.length_eq_zero.mp h0)
      simp [hlen]
  · intro cache ts1 ts2 hlen
    unfold calculateAndCacheStats
    have hck : _calculateTradeChecksum ts1 ≠ _calculateTradeChecksum ts2 := by
      intro h
      exact hlen (checksum_length_inj ts1 ts2 h)
    by_cases hv : _isCacheValid cache ts1
    · rw [if_pos hv]
      cases cache with
      | none => simp [_isCacheValid] at hv
      | some c0 =>
        simp only [_isCacheValid, Option.getD_some] at hv ⊢
        by_cases hc : c0.tradeCount = 0
        · simp [hc]
        · simp only [hc, if_false, reduceIte] at hv ⊢
          have h1 : c0.tradeChecksum = some (_calculateTradeChecksum ts1) := by
            simpa using hv
          rw [h1]
          simp [hck]
    · rw [if_neg hv]
      unfold _isCacheValid
      by_cases h0 : ts1.length = 0
      · simp [h0]
      · simp [h0, hck]

/-- C9: for a Saturday cell, the weekly P&L sums the daily P&L of exactly the
five calendar days `sat − 5 … sat − 1` preceding the Saturday — Monday through
Friday when `sat` is a Saturday, matching `_getWeekRange` and never the
calendar week containing it — skipping days without data, and is null exactly
when none of the five days has data.  The grid hypothesis says the cells
1…5 slots before the Saturday hold the corresponding consecutive dates, as
`_getDaysInMonth` guarantees. -/
theorem C9_weekly_pnl (pnlAt : ℤ → Option ℚ) (satIdx : ℤ) (sat : ℤ) (days : List ℤ)
    (hsat : 5 ≤ satIdx)
    (hidx : ∀ i : ℤ, 1 ≤ i → i ≤ 5 → days.get? (satIdx - i).toNat = some (sat - i)) :
    (_calculateWeeklyPnL pnlAt satIdx days =
      (if ([sat - 1, sat - 2, sat - 3, sat - 4, sat - 5].filterMap pnlAt) = []
       then none
       else some ([sat - 1, sat - 2, sat - 3, sat - 4, sat - 5].filterMap pnlAt).sum))
    ∧ _getWeekRange sat = (sat - 5, sat - 1)
    ∧ (sat % 7 = 6 →
        (sat - 5) % 7 = 1 ∧ (sat - 1) % 7 = 5 ∧ sat ∉ [sat - 1, sat - 2, sat - 3, sat - 4, sat - 5]) := by
  refine ⟨?_, rfl, ?_⟩
  · have h1 := hidx 1 (by norm_num) (by norm_num)
    have h2 := hidx 2 (by norm_num) (by norm_num)
    have h3 := hidx 3 (by norm_num) (by norm_num)
    have h4 := hidx 4 (by norm_num) (by norm_num)
    have h5 := hidx 5 (by norm_num) (by norm_num)
    have hn1 : ¬(satIdx - 1 < 0) := by omega
    have hn2 : ¬(satIdx - 2 < 0) := by omega
    have hn3 : ¬(satIdx - 3 < 0) := by omega
    have hn4 : ¬(satIdx - 4 < 0) := by omega
    have hn5 : ¬(satIdx - 5 < 0) := by omega
    simp only [_calculateWeeklyPnL, List.foldl_cons, List.foldl_nil,
      hn1, hn2, hn3, hn4, hn5, if_false, reduceIte, h1, h2, h3, h4, h5]
    rcases e1 : pnlAt (sat - 1) with _ | p1 <;>
      rcases e2 : pnlAt (sat - 2) with _ | p2 <;>
        rcases e3 : pnlAt (sat - 3) with _ | p3 <;>
          rcases e4 : pnlAt (sat - 4) with _ | p4 <;>
            rcases e5 : pnlAt (sat - 5) with _ | p5 <;>
      simp [List.filterMap, e1, e2, e3, e4, e5] <;> ring
  · intro hsat7
    refine ⟨by omega, by omega, ?_⟩
    intro hmem
    simp only [List.mem_cons, List.not_mem_nil, or_false] at hmem
    omega

/-- C9 witness: the spec's test vector [+100, −50, +25, 0, +75] on the five
days before Saturday day 6 sums to +150. -/
theorem C9_weekly_pnl_witness :
    _calculateWeeklyPnL
        (fun dt => if dt = 1 then some 100 else if dt = 2 then some (-50)
          else if dt = 3 then some 25 else if dt = 4 then some 0
          else if dt = 5 then some 75 else none)
        6 [0, 1, 2, 3, 4, 5, 6, 7, 8, 9, 10, 11, 12, 13] = some 150 := by
  have h := (C9_weekly_pnl
      (fun dt => if dt = 1 then some 100 else if dt = 2 then some (-50)
        else if dt = 3 then some 25 else if dt = 4 then some 0
        else if dt = 5 then some 75 else none)
      6 6 [0, 1, 2, 3, 4, 5, 6, 7, 8, 9, 10, 11, 12, 13] (by norm_num)
      (by intro i hi1 hi5; interval_cases i <;> rfl)).1
  rw [h]
  have hfm : (List.filterMap
      (fun dt => if dt = 1 then some (100 : ℚ) else if dt = 2 then some (-50)
        else if dt = 3 then some 25 else if dt = 4 then some 0
        else if dt = 5 then some 75 else none)
      ([6 - 1, 6 - 2, 6 - 3, 6 - 4, 6 - 5] : List ℤ)) = [75, 0, 25, -50, 100] := rfl
  rw [hfm, if_neg (by simp)]
  norm_num

/-- C2: for a historical date (different from today's date string) whose EOD
snapshot is marked incomplete, `getBalanceForDate` returns null — it never
surfaces the incomplete snapshot's stored balance. -/
theorem C2_incomplete_never_trusted (todayStr : String) (liveBalance : ℚ)
    (eod : String → Option EODData) (dateStr : String) (snap : EODData)
    (hdate : dateStr ≠ todayStr) (hsnap : eod dateStr = some snap)
    (hinc : snap.incomplete = true) :
    getBalanceForDate todayStr liveBalance eod dateStr = none := by
  unfold getBalanceForDate
  rw [if_neg hdate, hsnap]
  simp [hinc]

/-- C2 witness: an incomplete snapshot with balance 123 for 2024-01-05 yields
a null balance lookup on 2024-01-08. -/
theorem C2_incomplete_never_trusted_witness :
    getBalanceForDate ("2024-01-08") 999
        (fun dt => if dt = "2024-01-05"
          then some { balance := 123, cashFlow := none, incomplete := true }
          else none)
        ("2024-01-05") = none :=
  C2_incomplete_never_trusted ("2024-01-08") 999 _ ("2024-01-05")
    { balance := 123, cashFlow := none, incomplete := true } (by decide) rfl rfl

/-- C3 counterexample: day 9 has a complete snapshot (balance 100, no cash
flow) but its previous business day 8 has none; the calendar still reports
day 9 with P&L 100 − 40 − 0 = 60 against the starting account size 40, instead
of reporting the day as having no data as the claim requires. -/
theorem C3_counterexample :
    c3Eod (_getPreviousBusinessDay 9) = none ∧
      dayCell 40 c3Eod 9 = some { pnl := 60, balance := 100, cashFlow := 0 } := by
  constructor
  · rfl
  · norm_num [dayCell, c3Eod, _getPreviousBusinessDay, skipWeekendStep]

/-- C3 (amended): a calendar day is reported as having no data exactly when
its own EOD snapshot is missing or incomplete; when its snapshot is complete,
its daily P&L is `balance − prevBalance − cashFlow` where `prevBalance` is the
previous business day's snapshot balance when that snapshot is present and
complete and the starting account size otherwise (the previous day's snapshot
is silently substituted, not required). -/
theorem C3_daily_pnl_amended (start : ℚ) (eod : ℤ → Option EODData) (d : ℤ) :
    (dayCell start eod d = none ↔
      (eod d = none ∨ ∃ e, eod d = some e ∧ e.incomplete = true))
    ∧ (∀ e pe, eod d = some e → e.incomplete = false →
        eod (_getPreviousBusinessDay d) = some pe → pe.incomplete = false →
        dayCell start eod d = some
          { pnl := e.balance - pe.balance - e.cashFlow.getD 0,
            balance := e.balance, cashFlow := e.cashFlow.getD 0 })
    ∧ (∀ e, eod d = some e → e.incomplete = false →
        (eod (_getPreviousBusinessDay d) = none ∨
          (∃ pe, eod (_getPreviousBusinessDay d) = some pe ∧ pe.incomplete = true)) →
        dayCell start eod d = some
          { pnl := e.balance - start - e.cashFlow.getD 0,
            balance := e.balance, cashFlow := e.cashFlow.getD 0 })
    ∧ (∀ (day : CalDay) (days : List CalDay), day ∈ days → day.isCurrentMonth = true →
        ∀ e, dayCell start eod day.date = some e →
          (day.date, e) ∈ calculateMonthData days start eod) := by
  refine ⟨?_, ?_, ?_, ?_⟩
  · cases he : eod d with
    | none => simp [dayCell, he]
    | some e =>
      by_cases hi : e.incomplete <;> simp [dayCell, he, hi]
  · intro e pe he hi hpe hpi
    simp [dayCell, he, hi, hpe, hpi]
  · intro e he hi hprev
    rcases hprev with hn | ⟨pe, hpe, hpi⟩
    · simp [dayCell, he, hi, hn]
    · simp [dayCell, he, hi, hpe, hpi]
  · intro day days hmem hcm e hcell
    unfold calculateMonthData
    exact List.mem_filterMap.mpr ⟨day, hmem, by simp [hcm, hcell]⟩

/-- C3 witness for the amended claim: with complete snapshots on days 9 and 8
(balances 100 and 70, no cash flow), day 9's P&L is 100 − 70 − 0 = 30. -/
theorem C3_daily_pnl_amended_witness :
    dayCell 40
        (fun dt => if dt = 9
          then some { balance := 100, cashFlow := none, incomplete := false }
          else if dt = 8
            then some { balance := 70, cashFlow := none, incomplete := false }
            else none)
        9 = some { pnl := 30, balance := 100, cashFlow := 0 } := by
  have h := (C3_daily_pnl_amended 40
      (fun dt => if dt = 9
        then some { balance := 100, cashFlow := none, incomplete := false }
        else if dt = 8
          then some { balance := 70, cashFlow := none, incomplete := false }
          else none)
      9).2.1
      { balance := 100, cashFlow := none, incomplete := false }
      { balance := 70, cashFlow := none, incomplete := false }
      rfl rfl rfl rfl
  rw [h]
  norm_num

/-- C8: a price-refresh cycle commits an EOD snapshot exactly when the market
is after close, no snapshot is stored for the computed trading day, and that
trading day equals the current weekday's date string; once committed, any
later cycle over any cache at least as full never commits the same trading
day again, and a detected weekend/holiday (trading day ≠ current weekday)
never commits. -/
theorem C8_save_once_per_trading_day (isAfterClose : Bool)
    (tradingDay currentWeekday : String) (hasEOD : String → Bool) :
    ((checkAndSaveEOD isAfterClose tradingDay currentWeekday hasEOD).1 = true ↔
      (isAfterClose = true ∧ hasEOD tradingDay = false ∧ tradingDay = currentWeekday))
    ∧ ((checkAndSaveEOD isAfterClose tradingDay currentWeekday hasEOD).1 = true →
        ∀ hasEODLater : String → Bool,
          (∀ x, (checkAndSaveEOD isAfterClose tradingDay currentWeekday hasEOD).2 x = true →
            hasEODLater x = true) →
          ∀ (isAfterCloseLater : Bool) (currentWeekdayLater : String),
            (checkAndSaveEOD isAfterCloseLater tradingDay currentWeekdayLater hasEODLater).1
              = false)
    ∧ (tradingDay ≠ currentWeekday →
        (checkAndSaveEOD isAfterClose tradingDay currentWeekday hasEOD).1 = false) := by
  refine ⟨?_, ?_, ?_⟩
  · unfold checkAndSaveEOD
    by_cases hC : (isAfterClose && !hasEOD tradingDay && (tradingDay == currentWeekday)) = true
    · rw [if_pos hC]
      simp only [Bool.and_eq_true, Bool.not_eq_true', beq_iff_eq] at hC
      exact ⟨fun _ => ⟨hC.1.1, hC.1.2, hC.2⟩, fun _ => rfl⟩
    · rw [if_neg hC]
      simp only [Bool.and_eq_true, Bool.not_eq_true', beq_iff_eq] at hC
      simp only [Bool.false_eq_true, false_iff]
      rintro ⟨h1, h2, h3⟩
      exact hC ⟨⟨h1, h2⟩, h3⟩
  · intro hcommit hasEODLater hmono isAfterCloseLater currentWeekdayLater
    have hsnd : (checkAndSaveEOD isAfterClose tradingDay currentWeekday hasEOD).2 tradingDay
        = true := by
      unfold checkAndSaveEOD at hcommit ⊢
      by_cases hC : (isAfterClose && !hasEOD tradingDay && (tradingDay == currentWeekday)) = true
      · rw [if_pos hC]
        simp [hasEODAfterSave]
      · rw [if_neg hC] at hcommit
        simp at hcommit
    have hlater : hasEODLater tradingDay = true := hmono tradingDay hsnd
    unfold checkAndSaveEOD
    rw [if_neg]
    simp [hlater]
  · intro hne
    unfold checkAndSaveEOD
    rw [if_neg]
    simp [hne]

/-- C8 witness: after close, with an empty cache on a genuine trading day, the
snapshot is committed. -/
theorem C8_save_once_per_trading_day_witness :
    (checkAndSaveEOD true ("2024-01-05") ("2024-01-05") (fun _ => false)).1 = true :=
  (C8_save_once_per_trading_day true ("2024-01-05") ("2024-01-05") (fun _ => false)).1.mpr
    ⟨rfl, rfl, rfl⟩

/-- C4 witness: caching the one-trade list validates it, and the cache is
invalid for the emptied list. -/
theorem C4_checksum_invalidation_witness :
    _isCacheValid
        (some (calculateAndCacheStats none
          [{ id := "1700000000000", status := "open", pnl := 0, trimHistory := [] }]))
        [{ id := "1700000000000", status := "open", pnl := 0, trimHistory := [] }] = true
    ∧ _isCacheValid
        (some (calculateAndCacheStats none
          [{ id := "1700000000000", status := "open", pnl := 0, trimHistory := [] }]))
        [] = false :=
  ⟨(C4_checksum_invalidation).2.1 none
      [{ id := "1700000000000", status := "open", pnl := 0, trimHistory := [] }] (by decide),
    (C4_checksum_invalidation).2.2 none
      [{ id := "1700000000000", status := "open", pnl := 0, trimHistory := [] }] [] (by decide)⟩

/-- C5: `calculateWinRate` returns null when there are zero closed/trimmed
trades (so in particular for the empty list and for only-open lists) and
otherwise 100 × (closed/trimmed trades with realized P&L > 0) / (closed/trimmed
trades), in both implementations; appending a breakeven closed trade leaves
the win count unchanged, so a breakeven is never counted as a win. -/
theorem C5_winRate (trades : List Trade) :
    StatsCalculatorV1.calculateWinRate trades =
      (if (trades.filter isClosedOrTrimmed).length = 0 then none
       else some (100 * (((trades.filter isClosedOrTrimmed).filter fun t =>
            decide (0 < getTradeRealizedPnL t)).length : ℚ) /
          ((trades.filter isClosedOrTrimmed).length : ℚ)))
    ∧ StatsCalculatorV2.calculateWinRate trades = StatsCalculatorV1.calculateWinRate trades
    ∧ ∀ b : Trade, isClosedOrTrimmed b = true → getTradeRealizedPnL b = 0 →
        (((trades ++ [b]).filter isClosedOrTrimmed).filter fun t =>
            decide (0 < getTradeRealizedPnL t)).length =
          ((trades.filter isClosedOrTrimmed).filter fun t =>
            decide (0 < getTradeRealizedPnL t)).length := by
  refine ⟨?_, winRate_v2_eq_v1 trades, ?_⟩
  · unfold StatsCalculatorV1.calculateWinRate
    by_cases h : (trades.filter isClosedOrTrimmed).length = 0
    · simp [h]
    · simp only [h, reduceIte, if_neg, Option.some.injEq]
      ring
  · intro b hb hpnl
    simp [List.filter_append, hb, hpnl]

/-- C5 witness: appending a breakeven closed trade to the empty journal adds
no win. -/
theorem C5_winRate_witness :
    ((((([] : List Trade) ++
        ([{ id := "x", status := "closed", pnl := 0, trimHistory := [] }] : List Trade)).filter
          isClosedOrTrimmed).filter fun t =>
        decide (0 < getTradeRealizedPnL t)).length) =
      (((([] : List Trade)).filter isClosedOrTrimmed).filter fun t =>
        decide (0 < getTradeRealizedPnL t)).length :=
  (C5_winRate []).2.2 { id := "x", status := "closed", pnl := 0, trimHistory := [] }
    (by decide) (by decide)

/-- C6: `calculateWinsLosses` partitions the closed/trimmed trades into
`pnl > 0` wins and `pnl <= 0` losses; appending a breakeven closed trade adds
one loss, no win, and contributes zero to the `totalWins` numerator of
`calculateProfitFactor`. -/
theorem C6_winsLosses_breakeven (trades : List Trade) :
    StatsCalculatorV1.calculateWinsLosses trades =
      ({ wins := ((trades.filter isClosedOrTrimmed).filter fun t =>
            decide (0 < getTradeRealizedPnL t)).length
         losses := ((trades.filter isClosedOrTrimmed).filter fun t =>
            decide (getTradeRealizedPnL t ≤ 0)).length
         total := (trades.filter isClosedOrTrimmed).length } : WinsLosses)
    ∧ (StatsCalculatorV1.calculateWinsLosses trades).wins +
        (StatsCalculatorV1.calculateWinsLosses trades).losses =
        (StatsCalculatorV1.calculateWinsLosses trades).total
    ∧ ∀ b : Trade, isClosedOrTrimmed b = true → getTradeRealizedPnL b = 0 →
        (StatsCalculatorV1.calculateWinsLosses (trades ++ [b])).wins =
            (StatsCalculatorV1.calculateWinsLosses trades).wins
        ∧ (StatsCalculatorV1.calculateWinsLosses (trades ++ [b])).losses =
            (StatsCalculatorV1.calculateWinsLosses trades).losses + 1
        ∧ (StatsCalculatorV2._getClosedTradeMetrics (trades ++ [b])).totalWins =
            (StatsCalculatorV2._getClosedTradeMetrics trades).totalWins := by
  refine ⟨rfl, ?_, ?_⟩
  · unfold StatsCalculatorV1.calculateWinsLosses
    simp only
    rw [filter_nonpos_eq_filter_not_pos]
    exact length_filter_add_length_filter_not _ _
  · intro b hb hpnl
    refine ⟨?_, ?_, ?_⟩
    · unfold StatsCalculatorV1.calculateWinsLosses
      simp [List.filter_append, hb, hpnl]
    · unfold StatsCalculatorV1.calculateWinsLosses
      simp [List.filter_append, hb, hpnl]
    · unfold StatsCalculatorV2._getClosedTradeMetrics
      by_cases hc : (trades.filter isClosedOrTrimmed).length = 0
      · have he : trades.filter isClosedOrTrimmed = [] := List.length_eq_zero.mp hc
        simp [List.filter_append, hb, hpnl, hc, he]
      · have hne : ((trades ++ [b]).filter isClosedOrTrimmed).length ≠ 0 := by
          simp [List.filter_append, hb]
        simp [List.filter_append, hb, hpnl, hc, hne]

/-- C6 witness: appending a breakeven closed trade to a one-win journal keeps
`totalWins` at 10. -/
theorem C6_winsLosses_breakeven_witness :
    (StatsCalculatorV2._getClosedTradeMetrics
        ([{ id := "w", status := "closed", pnl := 10, trimHistory := [] }] ++
          [{ id := "x", status := "closed", pnl := 0, trimHistory := [] }])).totalWins =
      (StatsCalculatorV2._getClosedTradeMetrics
        [{ id := "w", status := "closed", pnl := 10, trimHistory := [] }]).totalWins :=
  ((C6_winsLosses_breakeven
      [{ id := "w", status := "closed", pnl := 10, trimHistory := [] }]).2.2
    { id := "x", status := "closed", pnl := 0, trimHistory := [] }
    (by decide) (by decide)).2.2

/-- C7: `calculateTradeExpectancy` returns null with no closed/trimmed trades
and otherwise the win-rate fraction times the average win plus the loss-rate
fraction times the (negative) average loss, in both implementations. -/
theorem C7_tradeExpectancy (trades : List Trade) :
    StatsCalculatorV1.calculateTradeExpectancy trades =
      (if (trades.filter isClosedOrTrimmed).length = 0 then none
       else some (
        ((((trades.filter isClosedOrTrimmed).filter fun t =>
            decide (0 < getTradeRealizedPnL t)).length : ℚ) /
          ((trades.filter isClosedOrTrimmed).length : ℚ)) *
          (if 0 < ((trades.filter isClosedOrTrimmed).filter fun t =>
              decide (0 < getTradeRealizedPnL t)).length then
            ((((trades.filter isClosedOrTrimmed).filter fun t =>
                decide (0 < getTradeRealizedPnL t)).map getTradeRealizedPnL).sum) /
              ((((trades.filter isClosedOrTrimmed).filter fun t =>
                decide (0 < getTradeRealizedPnL t)).length : ℚ))
          else 0) +
        ((((trades.filter isClosedOrTrimmed).filter fun t =>
            decide (getTradeRealizedPnL t < 0)).length : ℚ) /
          ((trades.filter isClosedOrTrimmed).length : ℚ)) *
          (if 0 < ((trades.filter isClosedOrTrimmed).filter fun t =>
              decide (getTradeRealizedPnL t < 0)).length then
            ((((trades.filter isClosedOrTrimmed).filter fun t =>
                decide (getTradeRealizedPnL t < 0)).map getTradeRealizedPnL).sum) /
              ((((trades.filter isClosedOrTrimmed).filter fun t =>
                decide (getTradeRealizedPnL t < 0)).length : ℚ))
          else 0)))
    ∧ StatsCalculatorV2.calculateTradeExpectancy trades =
        StatsCalculatorV1.calculateTradeExpectancy trades :=
  ⟨rfl, tradeExpectancy_v2_eq_v1 trades⟩

/-- C10 counterexample: on one win (+10), one loss (−10) and one breakeven
closed trade, the straight-line `calculateAvgWinLossRatio` yields 1 while the
refactored one yields 2 — the two implementations do not agree in the
presence of breakeven closed trades. -/
theorem C10_counterexample :
    StatsCalculatorV1.calculateAvgWinLossRatio c10Trades = some 1 ∧
      StatsCalculatorV2.calculateAvgWinLossRatio c10Trades = some 2 := by
  constructor
  · norm_num [StatsCalculatorV1.calculateAvgWinLossRatio, c10Trades, isClosedOrTrimmed,
      getTradeRealizedPnL, List.filter_cons, List.filter_nil]
  · norm_num [StatsCalculatorV2.calculateAvgWinLossRatio,
      StatsCalculatorV2._getClosedTradeMetrics, c10Trades, isClosedOrTrimmed,
      getTradeRealizedPnL, List.filter_cons, List.filter_nil]

/-- C10 (amended): the two `StatsCalculator` implementations agree on every
trade list for `winRate`, `winsLosses` and `tradeExpectancy`; they agree on
`avgWinLossRatio` whenever the list contains no breakeven closed/trimmed
trade (with a breakeven present the two can differ, see the
counterexample). -/
theorem C10_calculators_agree_amended (trades : List Trade) :
    StatsCalculatorV1.calculateWinRate trades = StatsCalculatorV2.calculateWinRate trades
    ∧ StatsCalculatorV1.calculateWinsLosses trades = StatsCalculatorV2.calculateWinsLosses trades
    ∧ StatsCalculatorV1.calculateTradeExpectancy trades =
        StatsCalculatorV2.calculateTradeExpectancy trades
    ∧ ((∀ t ∈ trades, isClosedOrTrimmed t = true → getTradeRealizedPnL t ≠ 0) →
        StatsCalculatorV1.calculateAvgWinLossRatio trades =
          StatsCalculatorV2.calculateAvgWinLossRatio trades) :=
  ⟨(winRate_v2_eq_v1 trades).symm, (winsLosses_v2_eq_v1 trades).symm,
    (tradeExpectancy_v2_eq_v1 trades).symm,
    fun h => (avgWinLossRatio_v2_eq_v1_of_no_breakeven trades h).symm⟩

/-- C10 witness: on a breakeven-free win/loss pair the two
`calculateAvgWinLossRatio` implementations agree. -/
theorem C10_calculators_agree_witness :
    StatsCalculatorV1.calculateAvgWinLossRatio
        [{ id := "w", status := "closed", pnl := 10, trimHistory := [] },
         { id := "l", status := "closed", pnl := -10, trimHistory := [] }] =
      StatsCalculatorV2.calculateAvgWinLossRatio
        [{ id := "w", status := "closed", pnl := 10, trimHistory := [] },
         { id := "l", status := "closed", pnl := -10, trimHistory := [] }] :=
  (C10_calculators_agree_amended
      [{ id := "w", status := "closed", pnl := 10, trimHistory := [] },
       { id := "l", status := "closed", pnl := -10, trimHistory := [] }]).2.2.2
    (by decide)

end StonkStats
